import Mathlib

/-!
Verification of the EBS-Front event-booking application.

Shallow embedding of the client-side logic:
- `handleBooking` from `src/pages/EventDetails.tsx`
- the event filter effect (`filterEvents`) from `src/pages/Events.tsx`
- the dashboard partition (`loadBookings`) and `handleCancelBooking`
  from the dashboard component
- the admin console operations (`toggleRole`, `saveEvent`,
  `totalRevenue`, `pendingOrders`)

JavaScript numbers are modelled as `Rat` (prices, amounts) and `Int`
(ticket counts, capacities); date values, which the code only ever
compares, are modelled as integer timestamps; `null`/`undefined`
becomes `Option`. Strict equality `===` on strings and numbers is
modelled with decidable propositional equality.
-/

/-- Row of the `events` table (`src/lib/database.types.ts`).
`event_date` is modelled as an integer timestamp. -/
structure Event where
  id : String
  title : String
  description : String
  location : String
  event_date : Int
  price : Rat
  category : String
  capacity : Int
  available_seats : Int
  image_url : Option String
  organizer_id : Option String
  created_at : String
  updated_at : String
deriving DecidableEq, Repr

/-- Row of the `bookings` table (`src/lib/database.types.ts`). -/
structure BookingRow where
  id : String
  event_id : String
  user_id : String
  num_tickets : Int
  total_price : Rat
  status : String
  created_at : String
deriving DecidableEq, Repr

/-- Payload of the booking insert issued by `handleBooking`
(`src/pages/EventDetails.tsx`): the backend generates `id` and
`created_at`. -/
structure BookingInsert where
  event_id : String
  user_id : String
  num_tickets : Int
  total_price : Rat
  status : String
deriving DecidableEq, Repr

/-- Row of the `profiles` table (`src/lib/database.types.ts`). -/
structure Profile where
  id : String
  email : String
  full_name : Option String
  role : String
  created_at : String
  updated_at : String
deriving DecidableEq, Repr

/-- Outcome of one run of `handleBooking`: redirect to login, silent
return when no event is loaded, an inline validation message, or a
backend insert of a booking row. -/
inductive BookingAction where
  | redirectLogin : BookingAction
  | noEvent : BookingAction
  | showError (msg : String) : BookingAction
  | insert (row : BookingInsert) : BookingAction
deriving DecidableEq, Repr

/-- `handleBooking` from `src/pages/EventDetails.tsx`: redirect when
not signed in, return when no event is loaded, reject ticket counts
outside `[1, event.available_seats]` with an inline message, otherwise
insert `{event_id, user_id, num_tickets, total_price = price * n,
status = 'confirmed'}`. -/
def handleBooking (user : Option String) (event : Option Event)
    (numTickets : Int) : BookingAction :=
  match user with
  | none => BookingAction.redirectLogin
  | some uid =>
    match event with
    | none => BookingAction.noEvent
    | some e =>
      if numTickets < 1 ∨ numTickets > e.available_seats then
        BookingAction.showError
          ("Please select between 1 and " ++ toString e.available_seats ++ " tickets")
      else
        BookingAction.insert
          { event_id := e.id
            user_id := uid
            num_tickets := numTickets
            total_price := e.price * (numTickets : Rat)
            status := "confirmed" }

/-- Whether a `BookingAction` is a backend insert. -/
def isInsert : BookingAction → Bool
  | BookingAction.insert _ => true
  | _ => false

/-- In-memory model of the backend tables touched by the pages. -/
structure Store where
  events : List Event
  bookings : List BookingRow
  profiles : List Profile
deriving DecidableEq, Repr

/-- Effect of a `BookingAction` on the backend: only `insert` writes,
appending one booking row whose `id` and `created_at` are generated by
the backend (passed as `genId`, `genCreated`). -/
def applyBookingAction (genId genCreated : String) (s : Store) :
    BookingAction → Store
  | BookingAction.insert p =>
    { s with bookings := s.bookings ++
        [{ id := genId
           event_id := p.event_id
           user_id := p.user_id
           num_tickets := p.num_tickets
           total_price := p.total_price
           status := p.status
           created_at := genCreated }] }
  | _ => s

/-- The price-band filter state of `src/pages/Events.tsx`:
`'all' | 'free' | 'paid'`. -/
inductive PriceFilter where
  | all : PriceFilter
  | free : PriceFilter
  | paid : PriceFilter
deriving DecidableEq, Repr

/-- Whether the first character list is a prefix of the second. -/
def prefixAt : List Char → List Char → Bool
  | [], _ => true
  | _ :: _, [] => false
  | a :: as, b :: bs => a == b && prefixAt as bs

/-- Whether the first character list occurs contiguously inside the
second. -/
def subList : List Char → List Char → Bool
  | needle, [] => prefixAt needle []
  | needle, b :: bs => prefixAt needle (b :: bs) || subList needle bs

/-- JavaScript `hay.includes(needle)` on strings: contiguous substring
test. -/
def includesStr (hay needle : String) : Bool :=
  subList needle.data hay.data

/-- JavaScript `toLowerCase()`, modelled characterwise. -/
def lowerStr (s : String) : String :=
  ⟨s.data.map Char.toLower⟩

/-- The free-text predicate of the filter effect in
`src/pages/Events.tsx`: case-insensitive substring match against
title, description or location. -/
def matchesSearch (searchQuery : String) (e : Event) : Bool :=
  includesStr (lowerStr e.title) (lowerStr searchQuery) ||
  includesStr (lowerStr e.description) (lowerStr searchQuery) ||
  includesStr (lowerStr e.location) (lowerStr searchQuery)

/-- The category predicate of the filter effect:
`event.category === selectedCategory`. -/
def matchesCategory (selectedCategory : String) (e : Event) : Bool :=
  decide (e.category = selectedCategory)

/-- The price-band predicates of the filter effect:
`event.price === 0` for `free`, `event.price > 0` for `paid`. -/
def matchesPrice : PriceFilter → Event → Bool
  | PriceFilter.all, _ => true
  | PriceFilter.free, e => decide (e.price = 0)
  | PriceFilter.paid, e => decide (0 < e.price)

/-- First stage of the filter effect: applied only when `searchQuery`
is truthy (non-empty). -/
def applySearch (searchQuery : String) (events : List Event) : List Event :=
  if searchQuery = "" then events
  else events.filter (matchesSearch searchQuery)

/-- Second stage of the filter effect: applied only when
`selectedCategory !== 'All'`. -/
def applyCategory (selectedCategory : String) (events : List Event) : List Event :=
  if selectedCategory = "All" then events
  else events.filter (matchesCategory selectedCategory)

/-- Third stage of the filter effect: applied for `free` and `paid`,
identity for `all`. -/
def applyPrice : PriceFilter → List Event → List Event
  | PriceFilter.all, events => events
  | PriceFilter.free, events => events.filter (matchesPrice PriceFilter.free)
  | PriceFilter.paid, events => events.filter (matchesPrice PriceFilter.paid)

/-- The filter effect of `src/pages/Events.tsx` (lines 47-71): the
three stages applied in source order (search, then category, then
price band). -/
def filterEvents (events : List Event) (searchQuery selectedCategory : String)
    (priceFilter : PriceFilter) : List Event :=
  applyPrice priceFilter (applyCategory selectedCategory (applySearch searchQuery events))

/-- A booking row joined with its event, as loaded by the dashboard
(`BookingWithEvent`). -/
structure BookingWithEvent where
  id : String
  event_id : String
  user_id : String
  num_tickets : Int
  total_price : Rat
  status : String
  created_at : String
  event : Event
deriving DecidableEq, Repr

/-- The upcoming test of the dashboard:
`new Date(booking.event.event_date) >= now && booking.status === 'confirmed'`. -/
def isUpcoming (now : Int) (b : BookingWithEvent) : Bool :=
  decide (b.event.event_date ≥ now) && decide (b.status = "confirmed")

/-- The partition loop of `Dashboard.loadBookings`: each loaded
booking is pushed to `upcoming` when upcoming, otherwise to `past`. -/
def loadBookings (now : Int) (data : List BookingWithEvent) :
    List BookingWithEvent × List BookingWithEvent :=
  data.foldl
    (fun acc b =>
      if isUpcoming now b then (acc.1 ++ [b], acc.2) else (acc.1, acc.2 ++ [b]))
    ([], [])

/-- `Dashboard.handleCancelBooking`: after interactive confirmation,
update the row with the given id, setting `status` to `'cancelled'`;
without confirmation, do nothing. -/
def handleCancelBooking (confirmed : Bool) (s : Store) (bookingId : String) : Store :=
  if confirmed then
    { s with bookings :=
        s.bookings.map fun b =>
          if b.id = bookingId then { b with status := "cancelled" } else b }
  else s

namespace Admin

/-- The admin console's `Profile` shape (`src/unnamed/part_002`). -/
structure Profile where
  id : String
  email : String
  full_name : String
  role : String
  created_at : String
deriving DecidableEq, Repr

/-- The admin console's `Event` shape (`src/unnamed/part_002`): note
it carries a `date` and a `status` field, unlike the public `events`
row. -/
structure Event where
  id : String
  title : String
  date : String
  location : String
  capacity : Rat
  price : Rat
  status : String
  created_at : String
deriving DecidableEq, Repr

/-- The admin console's `Order` shape (`src/unnamed/part_002`);
`total_amount` may be absent (the code reads `o.total_amount ?? 0`). -/
structure Order where
  id : String
  user_id : String
  event_id : String
  quantity : Int
  total_amount : Option Rat
  status : String
  created_at : String
deriving DecidableEq, Repr

/-- The role computation of `Admin.toggleRole`:
`current === 'admin' ? 'user' : 'admin'`. -/
def toggleRole (current : String) : String :=
  if current = "admin" then "user" else "admin"

/-- The editable fields kept by the rest-spread in `Admin.saveEvent`:
`const { id, created_at, ...fields } = eventModal` — `id` and
`created_at` are stripped. -/
structure EventFields where
  title : String
  date : String
  location : String
  capacity : Rat
  price : Rat
  status : String
deriving DecidableEq, Repr

/-- The rest-spread of `Admin.saveEvent`. -/
def eventFields (e : Event) : EventFields :=
  { title := e.title
    date := e.date
    location := e.location
    capacity := e.capacity
    price := e.price
    status := e.status }

/-- The backend call chosen by `Admin.saveEvent`: update keyed on the
id when one is present, insert otherwise. -/
inductive SaveAction where
  | update (id : String) (fields : EventFields) : SaveAction
  | insert (fields : EventFields) : SaveAction
deriving DecidableEq, Repr

/-- `Admin.saveEvent` (`src/unnamed/part_002`, lines 133-148): strip
`id` and `created_at`; when the id is truthy (non-empty) issue an
update of the remaining fields keyed on that id, else insert with
`status: fields.status || 'draft'`. Absent string fields of the modal
are modelled as empty strings. -/
def saveEvent (m : Event) : SaveAction :=
  if m.id ≠ "" then
    SaveAction.update m.id (eventFields m)
  else
    SaveAction.insert
      { eventFields m with
          status := if (eventFields m).status = "" then "draft" else (eventFields m).status }

/-- Backend semantics of an events-table update: rows matching the id
receive exactly the payload's fields; every field absent from the
payload (here `id` and `created_at`) is untouched. -/
def applyFields (e : Event) (f : EventFields) : Event :=
  { e with
      title := f.title
      date := f.date
      location := f.location
      capacity := f.capacity
      price := f.price
      status := f.status }

/-- Effect of `Admin.saveEvent` on the events table; `genId` and
`genCreated` stand for the backend-generated columns of an insert. -/
def applySaveEvent (genId genCreated : String) (events : List Event)
    (m : Event) : List Event :=
  match saveEvent m with
  | SaveAction.update i f =>
    events.map fun e => if e.id = i then applyFields e f else e
  | SaveAction.insert f =>
    events ++
      [{ id := genId
         title := f.title
         date := f.date
         location := f.location
         capacity := f.capacity
         price := f.price
         status := f.status
         created_at := genCreated }]

/-- `totalRevenue` from the admin overview (`src/unnamed/part_002`,
lines 168-170): sum of `total_amount ?? 0` over orders with status
`confirmed` or `completed`, via `filter` then `reduce` from `0`. -/
def totalRevenue (orders : List Order) : Rat :=
  (orders.filter fun o =>
      decide (o.status = "confirmed") || decide (o.status = "completed")).foldl
    (fun s o => s + o.total_amount.getD 0) 0

/-- `pendingOrders` from the admin overview (line 172): count of
orders with status `pending`. -/
def pendingOrders (orders : List Order) : Nat :=
  (orders.filter fun o => decide (o.status = "pending")).length

end Admin

/-- Sample event from the spec scenarios: `available_seats = 1`,
`capacity = 10`, `price = 25`, titled "Live Jazz Night" at
"Music Hall". -/
def sampleEvent : Event :=
  { id := "e1"
    title := "Live Jazz Night"
    description := "An evening of improvisation"
    location := "Music Hall"
    event_date := 100
    price := 25
    category := "Music"
    capacity := 10
    available_seats := 1
    image_url := none
    organizer_id := none
    created_at := "t0"
    updated_at := "t0" }

/-- Sample booking row for the witnesses. -/
def sampleBooking : BookingRow :=
  { id := "b1"
    event_id := "e1"
    user_id := "u1"
    num_tickets := 1
    total_price := 25
    status := "confirmed"
    created_at := "t1" }

/-- Sample store for the witnesses. -/
def sampleStore : Store :=
  { events := [sampleEvent]
    bookings := [sampleBooking]
    profiles := [] }

/-- C1: for a signed-in user and a loaded event, `handleBooking` issues
a booking insert iff the requested count lies in
`[1, event.available_seats]`, and the inserted row has status
`confirmed` and total price `event.price * t`. -/
theorem booking_insert_iff_range (u : String) (e : Event) (t : Int) :
    (isInsert (handleBooking (some u) (some e) t) = true ↔
      1 ≤ t ∧ t ≤ e.available_seats) ∧
    ∀ row, handleBooking (some u) (some e) t = BookingAction.insert row →
      row.status = "confirmed" ∧ row.total_price = e.price * (t : Rat) ∧
      row.event_id = e.id ∧ row.user_id = u ∧ row.num_tickets = t := by
  constructor
  · by_cases h : t < 1 ∨ t > e.available_seats <;>
      simp [handleBooking, isInsert, h] <;> omega
  · intro row hrow
    by_cases h : t < 1 ∨ t > e.available_seats
    · simp [handleBooking, h] at hrow
    · simp [handleBooking, h] at hrow
      subst hrow
      exact ⟨rfl, rfl, rfl, rfl, rfl⟩

/-- Witness for C1 at the spec scenario: one ticket for the sample
event (one seat available, price 25) is inserted, confirmed, and
priced 25. -/
theorem booking_insert_iff_range_witness :
    isInsert (handleBooking (some "u1") (some sampleEvent) 1) = true ∧
    ("confirmed" : String) = "confirmed" ∧
    (25 : Rat) = sampleEvent.price * ((1 : Int) : Rat) := by
  refine ⟨(booking_insert_iff_range "u1" sampleEvent 1).1.mpr (by decide), ?_⟩
  have h := (booking_insert_iff_range "u1" sampleEvent 1).2
    { event_id := "e1", user_id := "u1", num_tickets := 1,
      total_price := 25, status := "confirmed" }
    (by simp [handleBooking, sampleEvent])
  exact ⟨h.1, h.2.1⟩

/-- C2: an accepted booking writes nothing to the events table (every
event field is unchanged), and a second booking of one ticket against
the same still-loaded event is also accepted — the seat count is never
decremented by the workflow. -/
theorem booking_no_event_write (genId genCreated u u2 : String) (e : Event)
    (t : Int) (s : Store) (h1 : 1 ≤ t) (h2 : t ≤ e.available_seats) :
    isInsert (handleBooking (some u) (some e) t) = true ∧
    (applyBookingAction genId genCreated s
        (handleBooking (some u) (some e) t)).events = s.events ∧
    (applyBookingAction genId genCreated s
        (handleBooking (some u) (some e) t)).profiles = s.profiles ∧
    isInsert (handleBooking (some u2) (some e) 1) = true := by
  have hc : ¬(t < 1 ∨ t > e.available_seats) := by omega
  have hge : ¬e.available_seats < 1 := by omega
  refine ⟨?_, ?_, ?_, ?_⟩ <;>
    simp [handleBooking, hc, hge, isInsert, applyBookingAction]

/-- Witness for C2: booking the single remaining seat of the sample
event leaves the events table unchanged and a second one-ticket
attempt is still accepted. -/
theorem booking_no_event_write_witness :
    isInsert (handleBooking (some "u1") (some sampleEvent) 1) = true ∧
    (applyBookingAction "b2" "t2" sampleStore
        (handleBooking (some "u1") (some sampleEvent) 1)).events =
      sampleStore.events ∧
    (applyBookingAction "b2" "t2" sampleStore
        (handleBooking (some "u1") (some sampleEvent) 1)).profiles =
      sampleStore.profiles ∧
    isInsert (handleBooking (some "u2") (some sampleEvent) 1) = true :=
  booking_no_event_write "b2" "t2" "u1" "u2" sampleEvent 1 sampleStore
    (by decide) (by decide)

/-- C6: a ticket count outside `[1, event.available_seats]` produces
only the inline validation message; no insert is issued and the store
is unchanged. -/
theorem booking_validation_no_call (genId genCreated u : String) (e : Event)
    (t : Int) (s : Store) (h : t < 1 ∨ t > e.available_seats) :
    handleBooking (some u) (some e) t =
      BookingAction.showError
        ("Please select between 1 and " ++ toString e.available_seats ++ " tickets") ∧
    applyBookingAction genId genCreated s (handleBooking (some u) (some e) t) = s := by
  constructor
  · simp [handleBooking, h]
  · simp [handleBooking, h, applyBookingAction]

/-- Witness for C6: requesting two tickets when one seat is available
yields only the validation message and leaves the store unchanged. -/
theorem booking_validation_no_call_witness :
    handleBooking (some "u1") (some sampleEvent) 2 =
      BookingAction.showError
        ("Please select between 1 and " ++ toString sampleEvent.available_seats ++ " tickets") ∧
    applyBookingAction "b2" "t2" sampleStore
        (handleBooking (some "u1") (some sampleEvent) 2) = sampleStore :=
  booking_validation_no_call "b2" "t2" "u1" sampleEvent 2 sampleStore (by decide)

/-- Membership in the search stage. -/
theorem mem_applySearch (q : String) (l : List Event) (e : Event) :
    e ∈ applySearch q l ↔ e ∈ l ∧ (q = "" ∨ matchesSearch q e = true) := by
  by_cases hq : q = "" <;> simp [applySearch, hq, List.mem_filter]

/-- Membership in the category stage. -/
theorem mem_applyCategory (c : String) (l : List Event) (e : Event) :
    e ∈ applyCategory c l ↔ e ∈ l ∧ (c = "All" ∨ matchesCategory c e = true) := by
  by_cases hc : c = "All" <;> simp [applyCategory, hc, List.mem_filter]

/-- Membership in the price stage. -/
theorem mem_applyPrice (p : PriceFilter) (l : List Event) (e : Event) :
    e ∈ applyPrice p l ↔ e ∈ l ∧ (p = PriceFilter.all ∨ matchesPrice p e = true) := by
  cases p <;> simp [applyPrice, List.mem_filter, matchesPrice]

/-- The search stage is the identity on lists all of whose members
pass it. -/
theorem applySearch_eq_self (q : String) (l : List Event)
    (h : ∀ e ∈ l, q = "" ∨ matchesSearch q e = true) : applySearch q l = l := by
  by_cases hq : q = ""
  · simp [applySearch, hq]
  · simp only [applySearch, if_neg hq]
    exact List.filter_eq_self.mpr fun e he => ((h e he).resolve_left hq)

/-- The category stage is the identity on lists all of whose members
pass it. -/
theorem applyCategory_eq_self (c : String) (l : List Event)
    (h : ∀ e ∈ l, c = "All" ∨ matchesCategory c e = true) : applyCategory c l = l := by
  by_cases hc : c = "All"
  · simp [applyCategory, hc]
  · simp only [applyCategory, if_neg hc]
    exact List.filter_eq_self.mpr fun e he => ((h e he).resolve_left hc)

/-- The price stage is the identity on lists all of whose members pass
it. -/
theorem applyPrice_eq_self (p : PriceFilter) (l : List Event)
    (h : ∀ e ∈ l, p = PriceFilter.all ∨ matchesPrice p e = true) : applyPrice p l = l := by
  cases p
  · rfl
  · exact List.filter_eq_self.mpr fun e he => ((h e he).resolve_left (by simp))
  · exact List.filter_eq_self.mpr fun e he => ((h e he).resolve_left (by simp))

/-- Membership in the full filter, in terms of the three stage
predicates. -/
theorem mem_filterEvents (events : List Event) (q c : String) (p : PriceFilter)
    (e : Event) :
    e ∈ filterEvents events q c p ↔
      e ∈ events ∧ (q = "" ∨ matchesSearch q e = true) ∧
        (c = "All" ∨ matchesCategory c e = true) ∧
        (p = PriceFilter.all ∨ matchesPrice p e = true) := by
  unfold filterEvents
  rw [mem_applyPrice, mem_applyCategory, mem_applySearch]
  tauto

/-- C3: an event of the loaded list is in the filtered result iff the
query is empty or its lowercase form occurs in the lowercase title,
description or location, the category filter is `All` or matches
exactly, and the price band is `all`, or `free` with price 0, or
`paid` with positive price. -/
theorem events_filter_mem_spec (events : List Event) (q c : String)
    (p : PriceFilter) (e : Event) (he : e ∈ events) :
    e ∈ filterEvents events q c p ↔
      (q = "" ∨
        includesStr (lowerStr e.title) (lowerStr q) = true ∨
        includesStr (lowerStr e.description) (lowerStr q) = true ∨
        includesStr (lowerStr e.location) (lowerStr q) = true) ∧
      (c = "All" ∨ e.category = c) ∧
      (p = PriceFilter.all ∨ (p = PriceFilter.free ∧ e.price = 0) ∨
        (p = PriceFilter.paid ∧ 0 < e.price)) := by
  rw [mem_filterEvents]
  cases p <;>
    simp [he, matchesSearch, matchesCategory, matchesPrice, Bool.or_eq_true] <;>
    tauto

/-- Witness for C3 at the spec scenario: the query "music" matches the
sample event (titled "Live Jazz Night") only through its location
"Music Hall", and the event is in the filtered result. -/
theorem events_filter_mem_spec_witness :
    sampleEvent ∈ filterEvents [sampleEvent] "music" "All" PriceFilter.all :=
  (events_filter_mem_spec [sampleEvent] "music" "All" PriceFilter.all sampleEvent
      (by simp)).mpr
    ⟨Or.inr (Or.inr (Or.inr (by decide))), Or.inl rfl, Or.inl rfl⟩

/-- C7: the filter transformation is idempotent — applying it to its
own output with the same (query, category, priceFilter) returns its
output unchanged. -/
theorem filterEvents_idempotent (events : List Event) (q c : String)
    (p : PriceFilter) :
    filterEvents (filterEvents events q c p) q c p = filterEvents events q c p := by
  have hmem : ∀ e ∈ filterEvents events q c p,
      (q = "" ∨ matchesSearch q e = true) ∧
      (c = "All" ∨ matchesCategory c e = true) ∧
      (p = PriceFilter.all ∨ matchesPrice p e = true) := by
    intro e he
    exact ((mem_filterEvents events q c p e).mp he).2
  have hout : filterEvents (filterEvents events q c p) q c p =
      applyPrice p (applyCategory c (applySearch q (filterEvents events q c p))) := rfl
  rw [hout, applySearch_eq_self q _ fun e he => (hmem e he).1,
    applyCategory_eq_self c _ fun e he => (hmem e he).2.1,
    applyPrice_eq_self p _ fun e he => (hmem e he).2.2]

/-- The partition loop of `loadBookings`, generalized over the
accumulator: it appends the upcoming members to the first component
and the rest to the second, in order. -/
theorem loadBookings_foldl (now : Int) (l : List BookingWithEvent)
    (a b : List BookingWithEvent) :
    l.foldl
        (fun acc x =>
          if isUpcoming now x then (acc.1 ++ [x], acc.2) else (acc.1, acc.2 ++ [x]))
        (a, b) =
      (a ++ l.filter (isUpcoming now), b ++ l.filter fun x => !isUpcoming now x) := by
  induction l generalizing a b with
  | nil => simp
  | cons x xs ih =>
    by_cases h : isUpcoming now x = true <;>
      simp [h, ih, List.filter_cons]

/-- `loadBookings` filters the loaded list into the upcoming members
and the rest. -/
theorem loadBookings_eq (now : Int) (data : List BookingWithEvent) :
    loadBookings now data =
      (data.filter (isUpcoming now), data.filter fun x => !isUpcoming now x) := by
  have h := loadBookings_foldl now data [] []
  simpa [loadBookings] using h

/-- C4: a loaded booking lands in `upcoming` iff its event's date is
at or after the current moment and its status is `confirmed`,
otherwise in `past`; the two lists are a total, disjoint split of the
loaded list. -/
theorem dashboard_partition_spec (now : Int) (data : List BookingWithEvent)
    (b : BookingWithEvent) (hb : b ∈ data) :
    (b ∈ (loadBookings now data).1 ↔
      now ≤ b.event.event_date ∧ b.status = "confirmed") ∧
    (b ∈ (loadBookings now data).2 ↔
      ¬(now ≤ b.event.event_date ∧ b.status = "confirmed")) ∧
    ((b ∈ (loadBookings now data).1 ∧ b ∉ (loadBookings now data).2) ∨
      (b ∈ (loadBookings now data).2 ∧ b ∉ (loadBookings now data).1)) := by
  rw [loadBookings_eq]
  simp only [List.mem_filter, hb, true_and, Bool.not_eq_true']
  constructor
  · simp [isUpcoming, ge_iff_le, and_comm]
  constructor
  · simp [isUpcoming, ge_iff_le]
  · by_cases h : isUpcoming now b = true <;> simp [h]

/-- Witness for C4: with the sample event dated 100, a confirmed
booking observed at moment 50 is upcoming and not past. -/
theorem dashboard_partition_spec_witness :
    let bw : BookingWithEvent :=
      { id := "b1", event_id := "e1", user_id := "u1", num_tickets := 1,
        total_price := 25, status := "confirmed", created_at := "t1",
        event := sampleEvent }
    bw ∈ (loadBookings 50 [bw]).1 ↔
      (50 : Int) ≤ bw.event.event_date ∧ bw.status = "confirmed" := by
  intro bw
  exact (dashboard_partition_spec 50 [bw] bw (by simp)).1

/-- C5: the confirmed cancel updates only the `status` field of the
booking rows whose id matches (setting it to `cancelled`); every other
field, every other booking, and the events table are unchanged. -/
theorem cancel_booking_frame (s : Store) (bid : String) :
    (handleCancelBooking true s bid).events = s.events ∧
    (handleCancelBooking true s bid).profiles = s.profiles ∧
    (handleCancelBooking true s bid).bookings.length = s.bookings.length ∧
    ∀ i : Nat, ∀ b b2, s.bookings.get? i = some b →
      (handleCancelBooking true s bid).bookings.get? i = some b2 →
      b2.id = b.id ∧ b2.event_id = b.event_id ∧ b2.user_id = b.user_id ∧
      b2.num_tickets = b.num_tickets ∧ b2.total_price = b.total_price ∧
      b2.created_at = b.created_at ∧
      (b.id = bid → b2.status = "cancelled") ∧
      (b.id ≠ bid → b2.status = b.status) := by
  refine ⟨rfl, rfl, by simp [handleCancelBooking], ?_⟩
  intro i b b2 h1 h2
  simp only [handleCancelBooking, if_pos] at h2
  rw [List.get?_map, h1, Option.map_some'] at h2
  injection h2 with h2
  subst h2
  by_cases hb : b.id = bid
  · rw [if_pos hb]
    exact ⟨rfl, rfl, rfl, rfl, rfl, rfl, fun _ => rfl, fun h => absurd hb h⟩
  · rw [if_neg hb]
    exact ⟨rfl, rfl, rfl, rfl, rfl, rfl, fun h => absurd h hb, fun _ => rfl⟩

/-- Witness for C5 at the sample store: cancelling booking `b1` keeps
the events table and flips only that booking's status. -/
theorem cancel_booking_frame_witness :
    (handleCancelBooking true sampleStore "b1").events = sampleStore.events ∧
    ({ sampleBooking with status := "cancelled" } : BookingRow).id = sampleBooking.id ∧
    ({ sampleBooking with status := "cancelled" } : BookingRow).status = "cancelled" := by
  have h := cancel_booking_frame sampleStore "b1"
  have h4 := h.2.2.2 0 sampleBooking { sampleBooking with status := "cancelled" }
    (by rfl) (by simp [handleCancelBooking, sampleStore, sampleBooking])
  exact ⟨h.1, h4.1, h4.2.2.2.2.2.2.1 rfl⟩

/-- `decide` distributes over disjunction. -/
theorem decide_or_eq (p q : Prop) [Decidable p] [Decidable q] :
    decide (p ∨ q) = (decide p || decide q) := by
  by_cases hp : p <;> by_cases hq : q <;> simp [hp, hq]

/-- `reduce`-style left fold of additions, extracted as a sum. -/
theorem foldl_add_eq_sum {α : Type} (f : α → Rat) (l : List α) (a : Rat) :
    l.foldl (fun s o => s + f o) a = a + (l.map f).sum := by
  induction l generalizing a with
  | nil => simp
  | cons x xs ih => simp [ih, add_assoc]

/-- C8: the admin overview's total revenue is the sum of
`total_amount` (0 when missing) over exactly the orders with status
`confirmed` or `completed`, and the pending count is the number of
orders with status `pending`. -/
theorem admin_overview_stats (orders : List Admin.Order) :
    Admin.totalRevenue orders =
      ((orders.filter fun o =>
          decide (o.status = "confirmed" ∨ o.status = "completed")).map
        fun o => o.total_amount.getD 0).sum ∧
    Admin.pendingOrders orders =
      (orders.filter fun o => decide (o.status = "pending")).length := by
  constructor
  · rw [Admin.totalRevenue, foldl_add_eq_sum, zero_add]
    simp only [decide_or_eq]
  · rfl

/-- C10: the role toggle always lands in `{user, admin}`, maps `admin`
to `user` and anything else to `admin`, and on `{user, admin}` it is
an involution. -/
theorem admin_toggle_role_spec (r : String) :
    (Admin.toggleRole r = "user" ∨ Admin.toggleRole r = "admin") ∧
    (r = "admin" → Admin.toggleRole r = "user") ∧
    (r ≠ "admin" → Admin.toggleRole r = "admin") ∧
    ((r = "user" ∨ r = "admin") → Admin.toggleRole (Admin.toggleRole r) = r) := by
  by_cases h : r = "admin"
  · subst h
    exact ⟨Or.inl rfl, fun _ => rfl, fun hne => absurd rfl hne, fun _ => by decide⟩
  · refine ⟨Or.inr (if_neg h), fun he => absurd he h, fun _ => if_neg h, ?_⟩
    rintro (hu | ha)
    · subst hu; decide
    · exact absurd ha h

/-- Witness for C10: double toggle restores `user`, and `admin`
toggles to `user`. -/
theorem admin_toggle_role_spec_witness :
    Admin.toggleRole (Admin.toggleRole "user") = "user" ∧
    Admin.toggleRole "admin" = "user" :=
  ⟨(admin_toggle_role_spec "user").2.2.2 (Or.inl rfl),
    (admin_toggle_role_spec "admin").2.1 rfl⟩

/-- C9: saving an event edit that carries an existing id issues an
update whose payload was built by stripping `id` and `created_at`, so
no row's identity or creation timestamp changes. -/
theorem admin_update_preserves_identity (genId genCreated : String)
    (events : List Admin.Event) (m : Admin.Event) (h : m.id ≠ "") :
    Admin.saveEvent m = Admin.SaveAction.update m.id (Admin.eventFields m) ∧
    ∀ i : Nat, ∀ e e2, events.get? i = some e →
      (Admin.applySaveEvent genId genCreated events m).get? i = some e2 →
      e2.id = e.id ∧ e2.created_at = e.created_at := by
  have hsave : Admin.saveEvent m = Admin.SaveAction.update m.id (Admin.eventFields m) := by
    simp [Admin.saveEvent, h]
  refine ⟨hsave, ?_⟩
  intro i e e2 h1 h2
  simp only [Admin.applySaveEvent, hsave] at h2
  rw [List.get?_map, h1, Option.map_some'] at h2
  injection h2 with h2
  subst h2
  by_cases he : e.id = m.id
  · rw [if_pos he]
    exact ⟨rfl, rfl⟩
  · rw [if_neg he]
    exact ⟨rfl, rfl⟩

/-- Sample admin event for the C9 witness. -/
def sampleAdminEvent : Admin.Event :=
  { id := "e1"
    title := "Live Jazz Night"
    date := "2026-01-01"
    location := "Music Hall"
    capacity := 10
    price := 25
    status := "published"
    created_at := "t0" }

/-- The sample admin event with an edited title, for the C9 witness. -/
def renamedAdminEvent : Admin.Event :=
  { sampleAdminEvent with title := "Renamed" }

/-- Witness for C9: editing the sample admin event (changing its
title) keeps the stored row's id and creation timestamp. -/
theorem admin_update_preserves_identity_witness :
    Admin.saveEvent renamedAdminEvent =
      Admin.SaveAction.update "e1" (Admin.eventFields renamedAdminEvent) ∧
    renamedAdminEvent.id = sampleAdminEvent.id := by
  have h := admin_update_preserves_identity "g1" "g2" [sampleAdminEvent]
    renamedAdminEvent (by decide)
  refine ⟨h.1, ?_⟩
  have h2 := h.2 0 sampleAdminEvent renamedAdminEvent (by rfl)
    (by simp [Admin.applySaveEvent, Admin.saveEvent, Admin.eventFields,
          Admin.applyFields, renamedAdminEvent, sampleAdminEvent])
  exact h2.1
